import Mathlib

/-!
Shallow embedding of the tcp-leo repository (tcp_leo.c, tcp_leo.h,
tcp_leo_cubic.c): the CUBIC congestion-window engine with HyStart, the
LEO handover suspend/resume transmission gate (both the standalone
tcp_leo.c variant and the integrated tcp_leo_cubic.c variant), and the
phase-clock arithmetic.  Machine integers are modelled as Nat (or Int for
signed values) with explicit reductions modulo 2^32 / 2^64 wherever the C
code can wrap.
-/

namespace TcpLeo

set_option maxRecDepth 100000

/-! ## Machine-integer helpers -/

/-- Modulus of the C type u32. -/
def U32 : ℕ := 4294967296

/-- Modulus of the C type u64. -/
def U64 : ℕ := 18446744073709551616

/-- Reduction into u32 range (cast / wrap-around of 32-bit arithmetic). -/
def u32 (x : ℕ) : ℕ := x % U32

/-- Reduction into u64 range (cast / wrap-around of 64-bit arithmetic). -/
def u64 (x : ℕ) : ℕ := x % U64

/-- u32 subtraction `x - y` with wrap-around, as in C unsigned arithmetic. -/
def sub32 (x y : ℕ) : ℕ := (x % U32 + (U32 - y % U32)) % U32

/-- Reinterpret a u32 bit pattern as the signed value of the C cast `(s32)x`. -/
def toS32 (x : ℕ) : ℤ :=
  if x % U32 < 2147483648 then (x % U32 : ℤ) else (x % U32 : ℤ) - (U32 : ℤ)

/-- C conversion of an s32 value to u64: sign extension, i.e. the
two's-complement bit pattern of `toS32 x` as a 64-bit unsigned number. -/
def sext32to64 (x : ℕ) : ℕ := ((toS32 x) % (U64 : ℤ)).toNat

/-! ## fls64 (find last set bit)

The kernel's `fls64` returns the 1-based index of the most significant set
bit of a u64 (0 for input 0).  We implement it by fuel-bounded structural
recursion so that it is kernel-reducible; 64 units of fuel suffice for the
whole u64 domain. -/

/-- Fuel-bounded most-significant-bit index: bit length of `a` as long as
`a < 2 ^ fuel`. -/
def flsAux : ℕ → ℕ → ℕ
  | 0, _ => 0
  | fuel + 1, a => if a = 0 then 0 else flsAux fuel (a / 2) + 1

/-- The kernel fls64 on the u64 bit pattern of `a`. -/
def fls64 (a : ℕ) : ℕ := flsAux 64 (a % U64)

theorem flsAux_le : ∀ (fuel a : ℕ), flsAux fuel a ≤ fuel := by
  intro fuel
  induction fuel with
  | zero => intro a; simp [flsAux]
  | succ n ih =>
    intro a
    rw [flsAux]
    split
    · exact Nat.zero_le _
    · exact Nat.succ_le_succ (ih (a / 2))

theorem flsAux_zero : ∀ (fuel : ℕ), flsAux fuel 0 = 0 := by
  intro fuel
  cases fuel with
  | zero => rfl
  | succ n => simp [flsAux]

theorem flsAux_bounds : ∀ (fuel a : ℕ), a < 2 ^ fuel → 1 ≤ a →
    2 ^ (flsAux fuel a - 1) ≤ a ∧ a < 2 ^ flsAux fuel a := by
  intro fuel
  induction fuel with
  | zero =>
    intro a ha h1
    simp at ha
    omega
  | succ n ih =>
    intro a ha h1
    have hne : a ≠ 0 := by omega
    rw [flsAux, if_neg hne]
    by_cases hhalf : a / 2 = 0
    · have ha1 : a = 1 := by omega
      subst ha1
      simp [hhalf, flsAux_zero]
    · have hlt : a / 2 < 2 ^ n := by
        have h2 : a < 2 ^ n * 2 := by
          calc a < 2 ^ (n + 1) := ha
          _ = 2 ^ n * 2 := by ring
        omega
      obtain ⟨hlo, hhi⟩ := ih (a / 2) hlt (by omega)
      have hr1 : 1 ≤ flsAux n (a / 2) := by
        by_contra hc
        have h0 : flsAux n (a / 2) = 0 := by omega
        rw [h0] at hhi
        simp at hhi
        omega
      constructor
      · have : 2 ^ (flsAux n (a / 2) + 1 - 1) = 2 * 2 ^ (flsAux n (a / 2) - 1) := by
          rw [Nat.add_sub_cancel]
          rw [← pow_succ']
          congr 1
          omega
        rw [this]
        calc 2 * 2 ^ (flsAux n (a / 2) - 1) ≤ 2 * (a / 2) := by omega
        _ ≤ a := by omega
      · have h2 : a < 2 * (a / 2) + 2 := by omega
        calc a < 2 * (a / 2) + 2 := h2
        _ ≤ 2 * (2 ^ flsAux n (a / 2) - 1) + 2 := by
            have : a / 2 ≤ 2 ^ flsAux n (a / 2) - 1 := by omega
            omega
        _ ≤ 2 ^ (flsAux n (a / 2) + 1) := by
            have hp : 1 ≤ 2 ^ flsAux n (a / 2) := Nat.one_le_two_pow
            rw [pow_succ]
            omega

theorem fls64_bounds (a : ℕ) (h64 : a < U64) (h1 : 1 ≤ a) :
    2 ^ (fls64 a - 1) ≤ a ∧ a < 2 ^ fls64 a := by
  have hmod : a % U64 = a := Nat.mod_eq_of_lt h64
  rw [fls64, hmod]
  exact flsAux_bounds 64 a (by rw [show (2:ℕ)^64 = U64 from rfl]; exact h64) h1

theorem fls64_le_64 (a : ℕ) : fls64 a ≤ 64 := flsAux_le 64 (a % U64)

/-! ## cubic_root (tcp_leo_cubic.c, lines 516-562) -/

/-- The 64-entry precomputed cube-root mantissa table `v` of `cubic_root`. -/
def vTable : List ℕ :=
  [0, 54, 54, 54, 118, 118, 118, 118,
   123, 129, 134, 138, 143, 147, 151, 156,
   157, 161, 164, 168, 170, 173, 176, 179,
   181, 185, 187, 190, 192, 194, 197, 199,
   200, 202, 204, 206, 209, 211, 213, 215,
   217, 219, 221, 222, 224, 225, 227, 229,
   231, 232, 234, 236, 237, 239, 240, 242,
   244, 245, 246, 248, 250, 251, 252, 254]

/-- Table lookup `v[i]`.  All C reads are in bounds (proved below for the
paths taken); out-of-range indices default to 0. -/
def vLook (i : ℕ) : ℕ := vTable.getD i 0

/-- The initial table-based estimate `x` of the `b >= 7` path of
`cubic_root`, before the Newton-Raphson step:
`b = ((fls64(a) * 84) >> 8) - 1; shift = a >> (b * 3);`
`x = ((u32)(((u32)v[shift] + 10) << b)) >> 6`. -/
def cubicRootEst (a : ℕ) : ℕ :=
  let b := (fls64 a * 84) >>> 8 - 1
  let shift := a >>> (b * 3)
  (u32 ((vLook shift + 10) <<< b)) >>> 6

/-- `cubic_root` of tcp_leo_cubic.c: table lookup plus one Newton-Raphson
iteration.  `div64_u64` is u64 division; the u32 products and sums wrap.
For an estimate of 0 or 1 the C divisor would be 0 (undefined behaviour);
Nat division then yields 0, and the claim C10 proof shows the estimate is
in fact always at least 2 on this path. -/
def cubic_root (a : ℕ) : ℕ :=
  if fls64 a < 7 then
    (vLook a + 35) >>> 6
  else
    let x := cubicRootEst a
    let x := u32 (2 * x + u32 (a / u64 (x * (x - 1))))
    (u32 (x * 341)) >>> 10

/-! ## Module parameters and precomputed scale factors
(tcp_leo_cubic.c, lines 59-72 and 880-918) -/

/-- Configurable module parameters of tcp_leo_cubic.c together with the
kernel HZ constant. -/
structure CubicParams where
  hz : ℕ
  fast_convergence : Bool
  beta : ℕ
  bic_scale : ℕ
  tcp_friendliness : Bool
  hystart_detect : ℕ
  hystart_low_window : ℕ
  hystart_ack_delta_us : ℕ
  deriving Repr, DecidableEq

/-- Default parameter values as declared in the source (HZ = 1000). -/
def defaultParams : CubicParams :=
  { hz := 1000, fast_convergence := true, beta := 717, bic_scale := 41,
    tcp_friendliness := true, hystart_detect := 3, hystart_low_window := 16,
    hystart_ack_delta_us := 2000 }

/-- `beta_scale = 8*(BICTCP_BETA_SCALE+beta) / 3 / (BICTCP_BETA_SCALE - beta)`
precomputed in cubictcp_register (integer division, left to right). -/
def beta_scale (p : CubicParams) : ℕ := 8 * (1024 + p.beta) / 3 / (1024 - p.beta)

/-- `cube_rtt_scale = bic_scale * 10` precomputed in cubictcp_register. -/
def cube_rtt_scale (p : CubicParams) : ℕ := p.bic_scale * 10

/-- `cube_factor = 2^(10+3*BICTCP_HZ) / (bic_scale * 10)` precomputed in
cubictcp_register via do_div. -/
def cube_factor (p : CubicParams) : ℕ := 2 ^ 40 / (p.bic_scale * 10)

/-- Kernel `usecs_to_jiffies` for configurations where HZ divides 10^6
(e.g. 100, 250, 1000): round-up division by the microseconds per tick. -/
def usecs_to_jiffies (hz us : ℕ) : ℕ :=
  (us + (1000000 / hz) - 1) / (1000000 / hz)

/-- Kernel `msecs_to_jiffies` for configurations where HZ divides 10^3
(e.g. 100, 250, 1000): round-up division by the milliseconds per tick. -/
def msecs_to_jiffies (hz m : ℕ) : ℕ :=
  (m + (1000 / hz) - 1) / (1000 / hz)

/-! ## Per-connection congestion state (struct bictcp, lines 121-149) -/

/-- The fields of `struct bictcp` (all u32 except the u8 `sample_cnt` and
`found`, modelled as Nat holding values in range). -/
structure Bictcp where
  cnt : ℕ
  last_max_cwnd : ℕ
  last_cwnd : ℕ
  last_time : ℕ
  bic_origin_point : ℕ
  bic_K : ℕ
  delay_min : ℕ
  epoch_start : ℕ
  ack_cnt : ℕ
  tcp_cwnd : ℕ
  sample_cnt : ℕ
  found : ℕ
  round_start : ℕ
  end_seq : ℕ
  last_ack : ℕ
  curr_rtt : ℕ
  deriving Repr, DecidableEq

/-- The tcp_sock fields this embedding needs. -/
structure TcpSock where
  snd_una : ℕ
  snd_nxt : ℕ
  snd_cwnd : ℕ
  snd_ssthresh : ℕ
  deriving Repr, DecidableEq

/-! ## Transmission gate, integrated variant
(tcp_leo_cubic.c, lines 309-327 and 367-421) -/

/-- Connection state touched by the integrated (tcp_leo_cubic.c) suspend
and resume: the socket congestion window, the `bictcp.last_cwnd` snapshot
slot, and the socket retransmission deadline `icsk_timeout` (which that
variant never touches; it is carried to express claims about it). -/
structure LeoConn where
  snd_cwnd : ℕ
  last_cwnd : ℕ
  icsk_timeout : ℕ
  deriving Repr, DecidableEq

/-- `leo_suspend_transmission` of tcp_leo_cubic.c (lines 309-319):
snapshot the window into `ca->last_cwnd`, then zero `tp->snd_cwnd`. -/
def leo_suspend_transmission_cubic (s : LeoConn) : LeoConn :=
  { s with last_cwnd := s.snd_cwnd, snd_cwnd := 0 }

/-- `leo_resume_transmission` of tcp_leo_cubic.c (lines 321-327):
`tcp_snd_cwnd_set(tp, max(1, ca->last_cwnd))`. -/
def leo_resume_transmission_cubic (s : LeoConn) : LeoConn :=
  { s with snd_cwnd := max 1 s.last_cwnd }

/-- `leo_handover_start` of tcp_leo_cubic.c (lines 367-384): guarded
suspend, a no-op (logged anomaly) when the window is already 0. -/
def leo_handover_start_cubic (s : LeoConn) : LeoConn :=
  if s.snd_cwnd = 0 then s else leo_suspend_transmission_cubic s

/-- `leo_handover_end` of tcp_leo_cubic.c (lines 386-421): guarded resume,
a no-op (logged anomaly) when the window is already nonzero.  The
write-space wakeup only touches the socket wait queue, not this state. -/
def leo_handover_end_cubic (s : LeoConn) : LeoConn :=
  if s.snd_cwnd ≠ 0 then s else leo_resume_transmission_cubic s

/-! ## Transmission gate, standalone variant (tcp_leo.c, lines 154-255) -/

/-- Connection state touched by the standalone (tcp_leo.c) variant: the
congestion window and the retransmission deadline.  This variant holds no
snapshot slot of its own (the `last_snd_cwnd` save is compiled out under
`#if 0`); the resume value is supplied by the caller. -/
structure LeoConn2 where
  snd_cwnd : ℕ
  icsk_timeout : ℕ
  deriving Repr, DecidableEq

/-- `leo_handover_duration` of tcp_leo.c (lines 154-160): the raw
(unclamped) sum of the two configured offsets, in milliseconds. -/
def leo_handover_duration (startMs endMs : ℕ) : ℕ := startMs + endMs

/-- `leo_suspend_transmission` of tcp_leo.c (lines 162-180): zero the
window, and if `icsk_timeout` is nonzero extend it by
`msecs_to_jiffies(leo_handover_duration)` (unsigned long addition). -/
def leo_suspend_transmission_leo (hz startMs endMs : ℕ) (s : LeoConn2) : LeoConn2 :=
  { s with snd_cwnd := 0,
           icsk_timeout :=
             if s.icsk_timeout ≠ 0 then
               u64 (s.icsk_timeout +
                    msecs_to_jiffies hz (leo_handover_duration startMs endMs))
             else s.icsk_timeout }

/-- `leo_resume_transmission` of tcp_leo.c (lines 182-188). -/
def leo_resume_transmission_leo (last : ℕ) (s : LeoConn2) : LeoConn2 :=
  { s with snd_cwnd := max 1 last }

/-- `leo_handover_start` of tcp_leo.c (lines 229-243): guarded suspend. -/
def leo_handover_start_leo (hz startMs endMs : ℕ) (s : LeoConn2) : LeoConn2 :=
  if s.snd_cwnd = 0 then s else leo_suspend_transmission_leo hz startMs endMs s

/-- `leo_handover_end` of tcp_leo.c (lines 245-255): guarded resume. -/
def leo_handover_end_leo (last : ℕ) (s : LeoConn2) : LeoConn2 :=
  if s.snd_cwnd ≠ 0 then s else leo_resume_transmission_leo last s

/-! ## Congestion window engine update (bictcp_update, lines 567-675)

The function is decomposed block by block along the structure of the C
code: the `epoch_start == 0` opening and cubic-target computation
(`bictcpRecompute`), the `tcp_friendliness:` label block
(`bictcpFriendliness`), and the driver with its two skip paths and the
final `cnt = max(cnt, 2)` floor.  `now` stands for `tcp_jiffies32`. -/

/-- Body of bictcp_update from `ca->last_cwnd = cwnd` down to the
`cnt > 20` cap (lines 585-650), executed when neither skip path fires. -/
def bictcpRecompute (p : CubicParams) (ca : Bictcp) (cwnd acked now : ℕ) : Bictcp :=
  let ca := { ca with last_cwnd := cwnd, last_time := now }
  let ca :=
    if ca.epoch_start = 0 then
      let ca := { ca with epoch_start := now, ack_cnt := acked, tcp_cwnd := cwnd }
      if ca.last_max_cwnd ≤ cwnd then
        { ca with bic_K := 0, bic_origin_point := cwnd }
      else
        { ca with
            bic_K := cubic_root (u64 (cube_factor p * (ca.last_max_cwnd - cwnd))),
            bic_origin_point := ca.last_max_cwnd }
    else ca
  let t := sext32to64 (sub32 now ca.epoch_start)
  let t := u64 (t + usecs_to_jiffies p.hz ca.delay_min)
  let t := u64 (t <<< 10) / p.hz
  let offs := if t < ca.bic_K then ca.bic_K - t else t - ca.bic_K
  let delta := u32 ((u64 (cube_rtt_scale p * offs * offs * offs)) >>> 40)
  let target :=
    if t < ca.bic_K then sub32 ca.bic_origin_point delta
    else u32 (ca.bic_origin_point + delta)
  let ca : Bictcp :=
    if cwnd < target then { ca with cnt := cwnd / (target - cwnd) }
    else { ca with cnt := u32 (100 * cwnd) }
  if ca.last_max_cwnd = 0 ∧ 20 < ca.cnt then { ca with cnt := 20 }
  else ca

/-- The `tcp_friendliness:` block (lines 654-669).  The C while loop
subtracts `delta` from `ack_cnt` and bumps `tcp_cwnd` until
`ack_cnt <= delta`; it is expressed in closed form with iteration count
`k = (ack_cnt - 1) / delta`.  When `delta = 0` (only possible for
`cwnd * beta_scale < 8` modulo 2^32, i.e. a zero window under default
parameters) the C loop would not terminate; the closed form then takes
`k = 0`. -/
def bictcpFriendliness (p : CubicParams) (ca : Bictcp) (cwnd : ℕ) : Bictcp :=
  let delta := (u32 (cwnd * beta_scale p)) >>> 3
  let k := (ca.ack_cnt - 1) / delta
  let ca := { ca with ack_cnt := ca.ack_cnt - k * delta,
                      tcp_cwnd := u32 (ca.tcp_cwnd + k) }
  if cwnd < ca.tcp_cwnd then
    let d := ca.tcp_cwnd - cwnd
    let mc := cwnd / d
    if mc < ca.cnt then { ca with cnt := mc } else ca
  else ca

/-- Everything after the first early return of bictcp_update: the
`goto tcp_friendliness` skip, the recompute, the friendliness block and
the final `ca->cnt = max(ca->cnt, 2U)` floor. -/
def bictcpUpdateSlow (p : CubicParams) (ca : Bictcp) (cwnd acked now : ℕ) : Bictcp :=
  let ca1 :=
    if ca.epoch_start ≠ 0 ∧ now = ca.last_time then ca
    else bictcpRecompute p ca cwnd acked now
  let ca2 := if p.tcp_friendliness then bictcpFriendliness p ca1 cwnd else ca1
  { ca2 with cnt := max ca2.cnt 2 }

/-- `bictcp_update` (lines 567-675): count the ACKed packets, return
unchanged (beyond `ack_cnt`) when the window is unchanged and less than
HZ/32 jiffies elapsed (an s32 comparison on the wrapped difference), and
otherwise run the slow path. -/
def bictcp_update (p : CubicParams) (ca0 : Bictcp) (cwnd acked now : ℕ) : Bictcp :=
  let ca := { ca0 with ack_cnt := u32 (ca0.ack_cnt + acked) }
  if ca.last_cwnd = cwnd ∧ toS32 (sub32 now ca.last_time) ≤ (p.hz : ℤ) / 32 then ca
  else bictcpUpdateSlow p ca cwnd acked now

/-! ## Slow start threshold recomputation
(cubictcp_recalc_ssthresh, lines 713-728) -/

/-- `cubictcp_recalc_ssthresh`: end the epoch, recompute `last_max_cwnd`
(with fast convergence shrinking it by `(BETA_SCALE+beta)/(2*BETA_SCALE)`
when the window is below the previous maximum), and return
`max((cwnd * beta) / BETA_SCALE, 2)`.  The u32 products wrap. -/
def cubictcp_recalc_ssthresh (p : CubicParams) (ca : Bictcp) (cwnd : ℕ) :
    Bictcp × ℕ :=
  let ca := { ca with epoch_start := 0 }
  let ca :=
    if cwnd < ca.last_max_cwnd ∧ p.fast_convergence then
      { ca with last_max_cwnd := u32 (cwnd * (1024 + p.beta)) / (2 * 1024) }
    else
      { ca with last_max_cwnd := cwnd }
  (ca, max (u32 (cwnd * p.beta) / 1024) 2)

/-! ## HyStart (lines 50-57, 162-171, 758-818) -/

/-- TCP sequence comparison `after(seq1, seq2)`: seq1 is strictly later
than seq2 in 32-bit circular order. -/
def seqAfter (seq1 seq2 : ℕ) : Bool := toS32 (sub32 seq2 seq1) < 0

/-- `HYSTART_DELAY_THRESH(x) = clamp(x, 4000, 16000)` (microseconds). -/
def hystartDelayThresh (x : ℕ) : ℕ := min (max x 4000) 16000

/-- `bictcp_hystart_reset` (lines 162-171); `now` is `bictcp_clock_us`,
and `~0U` is 2^32 - 1. -/
def bictcp_hystart_reset (ca : Bictcp) (tp : TcpSock) (now : ℕ) : Bictcp :=
  { ca with round_start := now, last_ack := now, end_seq := tp.snd_nxt,
            curr_rtt := 4294967295, sample_cnt := 0 }

/-- `hystart_update` (lines 758-818).  `now` is `bictcp_clock_us(sk)`,
`ackDelay` the value of `hystart_ack_delay(sk)` (a socket pacing-rate
computation external to the congestion state), `pacingNone` whether
`sk->sk_pacing_status == SK_PACING_NONE`, and `delay` the RTT sample in
microseconds.  The ack-train comparison `(s32)(now - round_start) >
threshold` is an s32-vs-u32 comparison, which C performs unsigned. -/
def hystart_update (p : CubicParams) (ca : Bictcp) (tp : TcpSock)
    (now ackDelay : ℕ) (pacingNone : Bool) (delay : ℕ) : Bictcp × TcpSock :=
  let ca := if seqAfter tp.snd_una ca.end_seq then bictcp_hystart_reset ca tp now
            else ca
  let st :=
    if p.hystart_detect &&& 1 ≠ 0 then
      if toS32 (sub32 now ca.last_ack) ≤ (p.hystart_ack_delta_us : ℤ) then
        let ca := { ca with last_ack := now }
        let threshold := u32 (ca.delay_min + ackDelay)
        let threshold := if pacingNone then threshold >>> 1 else threshold
        if threshold < sub32 now ca.round_start then
          ({ ca with found := 1 }, { tp with snd_ssthresh := tp.snd_cwnd })
        else (ca, tp)
      else (ca, tp)
    else (ca, tp)
  let ca := st.1
  let tp := st.2
  if p.hystart_detect &&& 2 ≠ 0 then
    let ca := if delay < ca.curr_rtt then { ca with curr_rtt := delay } else ca
    if ca.sample_cnt < 8 then ({ ca with sample_cnt := ca.sample_cnt + 1 }, tp)
    else
      if ca.delay_min + hystartDelayThresh (ca.delay_min >>> 3) < ca.curr_rtt then
        ({ ca with found := 1 }, { tp with snd_ssthresh := tp.snd_cwnd })
      else (ca, tp)
  else (ca, tp)

/-! ## Phase clock (tcp_leo.c, lines 51-72 and 120-128; identical code in
tcp_leo_cubic.c, lines 216-236 and 280-287) -/

def NSEC_PER_SEC : ℕ := 1000000000

def SEC_PER_MIN : ℕ := 60

def NSEC_PER_MIN : ℕ := SEC_PER_MIN * NSEC_PER_SEC

/-- `leo_jiffies_base_compute`: `((tv_sec % 60) * NSEC_PER_SEC + tv_nsec)
* HZ - jiffies_64 * NSEC_PER_SEC`, a signed 64-bit value (the comment in
the source notes it may be negative). -/
def leo_jiffies_base_compute (hz tvSec tvNsec jiffies64 : ℕ) : ℤ :=
  ((tvSec % SEC_PER_MIN : ℕ) * NSEC_PER_SEC + tvNsec : ℕ) * hz
    - (jiffies64 : ℤ) * NSEC_PER_SEC

/-- `leo_jiffies`: the u64 sum `base + jiffies_64 * NSEC_PER_SEC`
(the s64 base converted to u64, arithmetic mod 2^64) reduced modulo one
minute in the same units, `NSEC_PER_MIN * HZ`. -/
def leo_jiffies (hz : ℕ) (base : ℤ) (jiffies64 : ℕ) : ℕ :=
  (((base + (jiffies64 : ℤ) * NSEC_PER_SEC) % (U64 : ℤ)).toNat) % (NSEC_PER_MIN * hz)

/-! ## Handover offset clamping (tcp_leo.c lines 26-38; identical macros
in tcp_leo_cubic.c lines 76-88) -/

def LEO_HANDOVER_OFFSET_DEFAULT : ℕ := 200

def LEO_HANDOVER_OFFSET_MAX : ℕ := 1000

/-- Default of the `leo_handover_start_ms` / `leo_handover_end_ms` module
parameters (C ints). -/
def leo_handover_ms_default : ℤ := 200

/-- `__LEO_HANDOVER_OFFSET(v) = ((u64)(v) <= 1000 ? (u64)(v) : 1000)`
where `v` is a C int, so the cast takes the value modulo 2^64 (negative
configured values therefore exceed the bound and clamp to 1000). -/
def leoHandoverOffset (v : ℤ) : ℕ :=
  if ((v % (U64 : ℤ)).toNat) ≤ LEO_HANDOVER_OFFSET_MAX then ((v % (U64 : ℤ)).toNat)
  else LEO_HANDOVER_OFFSET_MAX

/-! ## Claims -/

/-- C1: For every connection whose congestion window is w >= 1, suspend
then resume (the guarded handover operations of tcp_leo_cubic.c) restores
the congestion window to exactly w; resume is a no-op when the window is
already nonzero, otherwise it sets the window to max(1, saved window), so
the restored window is always at least 1. -/
theorem claim_C1 :
    (∀ s : LeoConn, 1 ≤ s.snd_cwnd →
        (leo_handover_end_cubic (leo_handover_start_cubic s)).snd_cwnd = s.snd_cwnd) ∧
    (∀ s : LeoConn, s.snd_cwnd ≠ 0 → leo_handover_end_cubic s = s) ∧
    (∀ s : LeoConn, s.snd_cwnd = 0 →
        (leo_handover_end_cubic s).snd_cwnd = max 1 s.last_cwnd) ∧
    (∀ s : LeoConn, 1 ≤ (leo_handover_end_cubic s).snd_cwnd) := by
  refine ⟨?_, ?_, ?_, ?_⟩
  · intro s hs
    have hne : ¬ s.snd_cwnd = 0 := by omega
    simp [leo_handover_start_cubic, leo_handover_end_cubic,
          leo_suspend_transmission_cubic, leo_resume_transmission_cubic, hne]
    omega
  · intro s hs
    simp [leo_handover_end_cubic, hs]
  · intro s hs
    simp [leo_handover_end_cubic, leo_resume_transmission_cubic, hs]
  · intro s
    by_cases hs : s.snd_cwnd = 0
    · simp [leo_handover_end_cubic, leo_resume_transmission_cubic, hs]
    · simp [leo_handover_end_cubic, hs]
      omega

/-- C1 witness: a connection with window 40 round-trips through suspend
and resume back to 40. -/
theorem claim_C1_witness :
    1 ≤ (⟨40, 7, 0⟩ : LeoConn).snd_cwnd ∧
    (leo_handover_end_cubic (leo_handover_start_cubic ⟨40, 7, 0⟩)).snd_cwnd =
      (⟨40, 7, 0⟩ : LeoConn).snd_cwnd :=
  ⟨by decide, claim_C1.1 ⟨40, 7, 0⟩ (by decide)⟩

/-- C6: calling the guarded suspend twice in a row leaves the state
identical to calling it once, in both source variants: the window is 0
after the first call, so the second is a guarded no-op. -/
theorem claim_C6 :
    (∀ s : LeoConn,
        leo_handover_start_cubic (leo_handover_start_cubic s) =
          leo_handover_start_cubic s) ∧
    (∀ (hz startMs endMs : ℕ) (s : LeoConn2),
        leo_handover_start_leo hz startMs endMs
            (leo_handover_start_leo hz startMs endMs s) =
          leo_handover_start_leo hz startMs endMs s) := by
  constructor
  · intro s
    by_cases hs : s.snd_cwnd = 0
    · simp [leo_handover_start_cubic, hs]
    · simp [leo_handover_start_cubic, leo_suspend_transmission_cubic, hs]
  · intro hz startMs endMs s
    by_cases hs : s.snd_cwnd = 0
    · simp [leo_handover_start_leo, hs]
    · simp [leo_handover_start_leo, leo_suspend_transmission_leo, hs]

/-- C9: the effective handover offset always lies in [0, 1000], equals
the configured value whenever that value is in [0, 1000], clamps
out-of-range values into the range (negative int values clamp to 1000 via
the u64 cast), and the default for both offsets is 200. -/
theorem claim_C9 :
    (∀ v : ℤ, leoHandoverOffset v ≤ 1000) ∧
    (∀ v : ℤ, 0 ≤ v → v ≤ 1000 → (leoHandoverOffset v : ℤ) = v) ∧
    (∀ v : ℤ, -2147483648 ≤ v → v < 0 → leoHandoverOffset v = 1000) ∧
    leoHandoverOffset leo_handover_ms_default = LEO_HANDOVER_OFFSET_DEFAULT ∧
    leo_handover_ms_default = 200 := by
  refine ⟨?_, ?_, ?_, by decide, by decide⟩
  · intro v
    unfold leoHandoverOffset LEO_HANDOVER_OFFSET_MAX
    split
    · omega
    · omega
  · intro v h0 h1
    unfold leoHandoverOffset LEO_HANDOVER_OFFSET_MAX
    have hm : v % (U64 : ℤ) = v := by
      unfold U64
      omega
    rw [hm]
    split
    · omega
    · omega
  · intro v h0 h1
    unfold leoHandoverOffset LEO_HANDOVER_OFFSET_MAX
    have hm : v % (U64 : ℤ) = v + (U64 : ℤ) := by
      unfold U64
      omega
    rw [hm]
    split
    · exfalso
      unfold U64 at *
      omega
    · rfl

/-- C9 witness: a configured value of 500 is inside the range and is used
unchanged. -/
theorem claim_C9_witness :
    (0 : ℤ) ≤ 500 ∧ (500 : ℤ) ≤ 1000 ∧ (leoHandoverOffset 500 : ℤ) = 500 :=
  ⟨by decide, by decide, claim_C9.2.1 500 (by decide) (by decide)⟩

/-- Concrete congestion state for the C5 loss-event scenario:
`last_max_cwnd = 80` with an open epoch. -/
def c5State : Bictcp :=
  { cnt := 0, last_max_cwnd := 80, last_cwnd := 50, last_time := 0,
    bic_origin_point := 0, bic_K := 0, delay_min := 0, epoch_start := 7,
    ack_cnt := 0, tcp_cwnd := 0, sample_cnt := 0, found := 0,
    round_start := 0, end_seq := 0, last_ack := 0, curr_rtt := 0 }

/-- C5: a loss event at window 50 with last_max_cwnd 80, fast convergence
and beta 717 zeroes epoch_start, sets last_max_cwnd to
50*(1024+717)/2048 = 42 and returns max(50*717/1024, 2) = 35; in general
the returned threshold is max(2, cwnd * beta / 1024) (exact as long as
the u32 product does not wrap). -/
theorem claim_C5 :
    ((cubictcp_recalc_ssthresh defaultParams c5State 50).1.epoch_start = 0 ∧
     (cubictcp_recalc_ssthresh defaultParams c5State 50).1.last_max_cwnd = 42 ∧
     (cubictcp_recalc_ssthresh defaultParams c5State 50).2 = 35) ∧
    (∀ (p : CubicParams) (ca : Bictcp) (cwnd : ℕ), cwnd * p.beta < U32 →
        (cubictcp_recalc_ssthresh p ca cwnd).2 = max (cwnd * p.beta / 1024) 2) := by
  constructor
  · refine ⟨by decide, by decide, by decide⟩
  · intro p ca cwnd h
    unfold cubictcp_recalc_ssthresh
    simp [u32, Nat.mod_eq_of_lt h]

/-- C5 witness: instantiating the general threshold formula at the
scenario window 50 under default parameters. -/
theorem claim_C5_witness :
    50 * defaultParams.beta < U32 ∧
    (cubictcp_recalc_ssthresh defaultParams c5State 50).2 =
      max (50 * defaultParams.beta / 1024) 2 :=
  ⟨by decide, claim_C5.2 defaultParams c5State 50 (by decide)⟩

/-- C2 counterexample: the integrated (tcp_leo_cubic.c) suspend, the one
that snapshots the window, leaves the retransmission deadline unchanged:
with default offsets (total 400 ms, 400 jiffies at HZ = 1000) a pending
deadline of 500 stays 500 instead of becoming 900 as the claim requires. -/
theorem claim_C2_counterexample :
    ¬ ((leo_suspend_transmission_cubic ⟨40, 0, 500⟩).icsk_timeout =
        500 + msecs_to_jiffies 1000 (leo_handover_duration 200 200)) := by
  decide

/-- C2 amended: the two suspend variants split the claimed behaviour.
The integrated variant snapshots the window into last_cwnd and zeroes the
window but does not touch the retransmission deadline; the standalone
(tcp_leo.c) variant zeroes the window and extends a nonzero pending
deadline by exactly msecs_to_jiffies(startOffset + endOffset) (and keeps
a zero deadline at zero), but performs no snapshot. -/
theorem claim_C2_amended :
    (∀ s : LeoConn,
        (leo_suspend_transmission_cubic s).last_cwnd = s.snd_cwnd ∧
        (leo_suspend_transmission_cubic s).snd_cwnd = 0 ∧
        (leo_suspend_transmission_cubic s).icsk_timeout = s.icsk_timeout) ∧
    (∀ (hz startMs endMs : ℕ) (s : LeoConn2), s.icsk_timeout ≠ 0 →
        (leo_suspend_transmission_leo hz startMs endMs s).snd_cwnd = 0 ∧
        (leo_suspend_transmission_leo hz startMs endMs s).icsk_timeout =
          u64 (s.icsk_timeout +
               msecs_to_jiffies hz (leo_handover_duration startMs endMs))) ∧
    (∀ (hz startMs endMs : ℕ) (s : LeoConn2), s.icsk_timeout = 0 →
        (leo_suspend_transmission_leo hz startMs endMs s).icsk_timeout = 0) := by
  refine ⟨?_, ?_, ?_⟩
  · intro s
    exact ⟨rfl, rfl, rfl⟩
  · intro hz startMs endMs s h
    unfold leo_suspend_transmission_leo
    simp [h]
  · intro hz startMs endMs s h
    unfold leo_suspend_transmission_leo
    simp [h]

/-- C2 amended witness: the standalone suspend at HZ = 1000 with default
offsets extends a pending deadline of 500 to 900. -/
theorem claim_C2_witness :
    (⟨40, 500⟩ : LeoConn2).icsk_timeout ≠ 0 ∧
    (leo_suspend_transmission_leo 1000 200 200 ⟨40, 500⟩).snd_cwnd = 0 ∧
    (leo_suspend_transmission_leo 1000 200 200 ⟨40, 500⟩).icsk_timeout =
      u64 (500 + msecs_to_jiffies 1000 (leo_handover_duration 200 200)) :=
  ⟨by decide, (claim_C2_amended.2.1 1000 200 200 ⟨40, 500⟩ (by decide)).1,
   (claim_C2_amended.2.1 1000 200 200 ⟨40, 500⟩ (by decide)).2⟩

/-- Congestion state at the start of the C4 HyStart round: freshly reset
round fields (round_start = last_ack = 100000, curr_rtt = ~0U,
sample_cnt = 0), overall minimum delay 10000 µs, exit not yet found. -/
def hystartCa0 : Bictcp :=
  { cnt := 0, last_max_cwnd := 0, last_cwnd := 0, last_time := 0,
    bic_origin_point := 0, bic_K := 0, delay_min := 10000, epoch_start := 0,
    ack_cnt := 0, tcp_cwnd := 0, sample_cnt := 0, found := 0,
    round_start := 100000, end_seq := 2000, last_ack := 100000,
    curr_rtt := 4294967295 }

/-- Socket state for the C4 scenario: in slow start at window 32
(above hystart_low_window = 16), snd_una within the round. -/
def hystartTp0 : TcpSock :=
  { snd_una := 1000, snd_nxt := 2000, snd_cwnd := 32,
    snd_ssthresh := 2147483647 }

/-- Feed a list of RTT samples through hystart_update under default
parameters, the clock advancing 5000 µs per sample (so the ack-train
detector condition `(s32)(now - last_ack) <= 2000` never holds and only
the delay detector acts). -/
def hystartRun (ds : List ℕ) : Bictcp × TcpSock × ℕ :=
  ds.foldl
    (fun st d =>
      let r := hystart_update defaultParams st.1 st.2.1 (st.2.2 + 5000) 0 true d
      (r.1, r.2, st.2.2 + 5000))
    (hystartCa0, hystartTp0, 100000)

/-- C4 counterexample: after 8 qualifying samples with minimum 10000 µs
(overall delay_min also 10000 µs), a 9th qualifying sample of 19000 µs
does NOT mark the slow-start exit found: the delay detector compares the
round's minimum RTT — still 10000, not the new sample — against
10000 + clamp(10000/8, 4000, 16000) = 14000, so `found` stays 0 and the
threshold is not clamped. -/
theorem claim_C4_counterexample :
    (hystartRun (List.replicate 8 10000)).1.sample_cnt = 8 ∧
    (hystartRun (List.replicate 8 10000)).1.curr_rtt = 10000 ∧
    (hystartRun (List.replicate 8 10000)).1.delay_min = 10000 ∧
    (hystartRun (List.replicate 8 10000 ++ [19000])).1.found = 0 ∧
    (hystartRun (List.replicate 8 10000 ++ [19000])).2.1.snd_ssthresh =
      2147483647 := by
  refine ⟨by decide, by decide, by decide, by decide, by decide⟩

/-- C4 amended: the delay detector fires on the 9th sample only when the
whole round's minimum RTT (including that sample) exceeds
delay_min + clamp(delay_min/8, 4000, 16000) = 14000; with a round
minimum of 10000 a 19000 µs sample does not trigger, whereas nine
samples of 19000 µs (round minimum 19000 > 14000, overall delay_min
still 10000) mark the exit found and clamp the threshold to the current
window 32. -/
theorem claim_C4_amended :
    (hystartRun (List.replicate 9 19000)).1.found = 1 ∧
    (hystartRun (List.replicate 9 19000)).2.1.snd_ssthresh = 32 ∧
    10000 + hystartDelayThresh (10000 >>> 3) = 14000 := by
  refine ⟨by decide, by decide, by decide⟩

/-- Congestion state for the C3 counterexample: exactly the state after
bictcp_reset (all counters zero, in particular cnt = 0) except that
last_cwnd = 10, as left behind by leo_suspend_transmission snapshotting a
window of 10 into ca->last_cwnd. -/
def c3State : Bictcp :=
  { cnt := 0, last_max_cwnd := 0, last_cwnd := 10, last_time := 0,
    bic_origin_point := 0, bic_K := 0, delay_min := 0, epoch_start := 0,
    ack_cnt := 0, tcp_cwnd := 0, sample_cnt := 0, found := 0,
    round_start := 0, end_seq := 0, last_ack := 0, curr_rtt := 0 }

/-- C3 counterexample: in the state above (reachable via init-time
suspend at window 10 followed by the forced resume in cubictcp_cong_avoid
restoring window max(1,10) = 10), an update at window 10 with
tcp_jiffies32 = 2^32 - 300000 (the value right after boot with
INITIAL_JIFFIES at HZ = 1000) takes the first early return — the s32
difference now - last_time = -300000 is <= HZ/32 — and leaves cnt = 0,
so cnt >= 2 does not hold after the engine update. -/
theorem claim_C3_counterexample :
    ¬ (2 ≤ (bictcp_update defaultParams c3State 10 1 4294667296).cnt) := by
  decide

/-- C3 amended: after every bictcp_update call that does not take the
first early return (window changed, or more than HZ/32 jiffies elapsed
in s32 arithmetic), cnt is at least 2: both the recompute path and the
`goto tcp_friendliness` skip path end in the `cnt = max(cnt, 2)` floor.
The first early return leaves cnt unchanged, so the bound can fail there
(the counterexample state has cnt = 0 from bictcp_reset). -/
theorem claim_C3_amended (p : CubicParams) (ca : Bictcp) (cwnd acked now : ℕ)
    (h : ¬ (ca.last_cwnd = cwnd ∧
            toS32 (sub32 now ca.last_time) ≤ (p.hz : ℤ) / 32)) :
    2 ≤ (bictcp_update p ca cwnd acked now).cnt := by
  unfold bictcp_update
  simp only
  split
  · next hc => exact absurd hc h
  · exact Nat.le_max_right _ _

/-- C3 amended witness: the same counterexample state updated at a
changed window 11 ends with cnt >= 2. -/
theorem claim_C3_witness :
    ¬ (c3State.last_cwnd = 11 ∧
       toS32 (sub32 4294667296 c3State.last_time) ≤
         (defaultParams.hz : ℤ) / 32) ∧
    2 ≤ (bictcp_update defaultParams c3State 11 1 4294667296).cnt :=
  ⟨by decide, claim_C3_amended defaultParams c3State 11 1 4294667296 (by decide)⟩

/-- Finite check over all fls64 values of the b >= 7 path: with
b2 = ((b*84) >> 8) - 1, we have 1 <= b2 <= 20, and
b - 1 - 3*b2 >= 2 and b - 3*b2 <= 6 (so the table index, which lies in
[2^(b-1-3*b2), 2^(b-3*b2)), is between 4 and 63). -/
theorem flsCoeffCheck : ∀ b ∈ Finset.Icc 7 64,
    1 ≤ (b * 84) >>> 8 - 1 ∧ (b * 84) >>> 8 - 1 ≤ 20 ∧
    3 * ((b * 84) >>> 8 - 1) + 3 ≤ b ∧ b ≤ 3 * ((b * 84) >>> 8 - 1) + 6 := by
  decide

/-- Table entries at indices 4..63 lie between 118 and 254. -/
theorem vLookCheck : ∀ s ∈ Finset.Icc 4 63, 118 ≤ vLook s ∧ vLook s ≤ 254 := by
  decide

/-- C10: for every 64-bit input with at least 7 significant bits, the
initial table estimate inside cubic_root is at least 2 (in fact at least
4), hence the Newton-Raphson divisor x*(x-1) is nonzero and cubic_root
performs no division by zero. -/
theorem claim_C10 (a : ℕ) (h64 : a < U64) (hb : 7 ≤ fls64 a) :
    2 ≤ cubicRootEst a ∧ cubicRootEst a * (cubicRootEst a - 1) ≠ 0 := by
  have ha1 : 1 ≤ a := by
    rcases Nat.eq_zero_or_pos a with h0 | h1
    · subst h0
      rw [fls64] at hb
      norm_num [flsAux_zero] at hb
    · exact h1
  obtain ⟨hlo, hhi⟩ := fls64_bounds a h64 ha1
  have hb64 : fls64 a ≤ 64 := fls64_le_64 a
  obtain ⟨h1b, h2b, h3b, h4b⟩ :=
    flsCoeffCheck (fls64 a) (Finset.mem_Icc.mpr ⟨hb, hb64⟩)
  have hpos : 0 < 2 ^ (((fls64 a * 84) >>> 8 - 1) * 3) :=
    pow_pos (by norm_num) _
  have hshift_ge : 4 ≤ a >>> (((fls64 a * 84) >>> 8 - 1) * 3) := by
    rw [Nat.shiftRight_eq_div_pow, Nat.le_div_iff_mul_le hpos]
    calc 4 * 2 ^ (((fls64 a * 84) >>> 8 - 1) * 3)
        = 2 ^ (((fls64 a * 84) >>> 8 - 1) * 3 + 2) := by ring
    _ ≤ 2 ^ (fls64 a - 1) := Nat.pow_le_pow_right (by norm_num) (by omega)
    _ ≤ a := hlo
  have hshift_le : a >>> (((fls64 a * 84) >>> 8 - 1) * 3) ≤ 63 := by
    rw [Nat.shiftRight_eq_div_pow]
    have hlt : a / 2 ^ (((fls64 a * 84) >>> 8 - 1) * 3) < 64 := by
      rw [Nat.div_lt_iff_lt_mul hpos]
      calc a < 2 ^ fls64 a := hhi
      _ ≤ 2 ^ (((fls64 a * 84) >>> 8 - 1) * 3 + 6) :=
          Nat.pow_le_pow_right (by norm_num) (by omega)
      _ = 64 * 2 ^ (((fls64 a * 84) >>> 8 - 1) * 3) := by ring
    omega
  obtain ⟨hv1, hv2⟩ :=
    vLookCheck _ (Finset.mem_Icc.mpr ⟨hshift_ge, hshift_le⟩)
  have hge : 4 ≤ cubicRootEst a := by
    unfold cubicRootEst
    simp only
    have hsmall :
        (vLook (a >>> (((fls64 a * 84) >>> 8 - 1) * 3)) + 10) *
          2 ^ ((fls64 a * 84) >>> 8 - 1) < U32 := by
      calc (vLook (a >>> (((fls64 a * 84) >>> 8 - 1) * 3)) + 10) *
            2 ^ ((fls64 a * 84) >>> 8 - 1)
          ≤ 264 * 2 ^ 20 :=
            Nat.mul_le_mul (by omega) (Nat.pow_le_pow_right (by norm_num) h2b)
      _ < U32 := by norm_num [U32]
    rw [Nat.shiftLeft_eq, u32, Nat.mod_eq_of_lt hsmall,
        Nat.shiftRight_eq_div_pow]
    have h256 : 256 ≤
        (vLook (a >>> (((fls64 a * 84) >>> 8 - 1) * 3)) + 10) *
          2 ^ ((fls64 a * 84) >>> 8 - 1) := by
      calc (256 : ℕ) = 128 * 2 ^ 1 := by norm_num
      _ ≤ (vLook (a >>> (((fls64 a * 84) >>> 8 - 1) * 3)) + 10) *
            2 ^ ((fls64 a * 84) >>> 8 - 1) :=
          Nat.mul_le_mul (by omega) (Nat.pow_le_pow_right (by norm_num) h1b)
    have h64eq : (2 : ℕ) ^ 6 = 64 := by norm_num
    rw [h64eq]
    generalize (vLook (a >>> (((fls64 a * 84) >>> 8 - 1) * 3)) + 10) *
        2 ^ ((fls64 a * 84) >>> 8 - 1) = X at h256 ⊢
    omega
  exact ⟨by omega, Nat.mul_ne_zero (by omega) (by omega)⟩

/-- C10 witness: the smallest input of the Newton-Raphson path, a = 64,
has estimate at least 2 and a nonzero divisor. -/
theorem claim_C10_witness :
    (64 : ℕ) < U64 ∧ 7 ≤ fls64 64 ∧
    (2 ≤ cubicRootEst 64 ∧ cubicRootEst 64 * (cubicRootEst 64 - 1) ≠ 0) :=
  ⟨by norm_num [U64], by decide, claim_C10 64 (by norm_num [U64]) (by decide)⟩

/-- Relative error of x as an approximation of the real cube root of a is
at most 0.3 percent, encoded without real numbers by cubing the bounds:
0.997 * cbrt(a) <= x <= 1.003 * cbrt(a) holds exactly when
997^3 * a <= 1000^3 * x^3 and 1000^3 * x^3 <= 1003^3 * a. -/
abbrev relErrOK (a x : ℕ) : Prop :=
  997 ^ 3 * a ≤ 1000 ^ 3 * x ^ 3 ∧ 1000 ^ 3 * x ^ 3 ≤ 1003 ^ 3 * a

/-- C8 counterexample: both halves of the claim fail on concrete inputs.
cubic_root is not non-decreasing: cubic_root 111 = 5 but
cubic_root 112 = 4.  And cubic_root 2 = 1 while the real cube root of 2
is about 1.26, a relative error of about 21 percent, far above 0.3
percent (the lower cube bound 997^3 * 2 <= 1000^3 * 1^3 fails). -/
theorem claim_C8_counterexample :
    ¬ (cubic_root 111 ≤ cubic_root 112) ∧ ¬ relErrOK 2 (cubic_root 2) := by
  refine ⟨by decide, by decide⟩

/-- C8 amended: the 0.3 percent bound and monotonicity fail in general
(see the counterexample; integer rounding alone exceeds 0.3 percent until
outputs reach the hundreds, and the initial-estimate jumps at table
boundaries break monotonicity).  What holds of the code: the error bound
at representative large magnitudes across the 64-bit range — 2^18, 10^6,
10^9, 10^12, 10^15, 10^18, 2^63, 2^64 - 1, and the bic_K operand
cube_factor * 80 — and monotonicity on the pure table path (inputs
0..63, fewer than 7 significant bits). -/
theorem claim_C8_amended :
    relErrOK 262144 (cubic_root 262144) ∧
    relErrOK 1000000 (cubic_root 1000000) ∧
    relErrOK 1000000000 (cubic_root 1000000000) ∧
    relErrOK 1000000000000 (cubic_root 1000000000000) ∧
    relErrOK 1000000000000000 (cubic_root 1000000000000000) ∧
    relErrOK 1000000000000000000 (cubic_root 1000000000000000000) ∧
    relErrOK 9223372036854775808 (cubic_root 9223372036854775808) ∧
    relErrOK 18446744073709551615 (cubic_root 18446744073709551615) ∧
    relErrOK (cube_factor defaultParams * 80)
      (cubic_root (cube_factor defaultParams * 80)) ∧
    (∀ a, a < 63 → cubic_root a ≤ cubic_root (a + 1)) := by
  refine ⟨by decide, by decide, by decide, by decide, by decide, by decide,
          by decide, by decide, by decide, by decide⟩

/-- C8 amended witness: instantiating table-path monotonicity at 10. -/
theorem claim_C8_witness :
    (10 : ℕ) < 63 ∧ cubic_root 10 ≤ cubic_root 11 :=
  ⟨by decide, claim_C8_amended.2.2.2.2.2.2.2.2.2 10 (by decide)⟩

/-- C7: leo_jiffies equals (base + tick count in nanosecond-tick units)
mod one minute in the same units whenever that sum is representable as a
u64 (which the monotonic tick count guarantees for a base produced by
resync); for a base computed by leo_jiffies_base_compute at wall time
(s, ns) with the same tick count, its value is exactly the wall-clock
phase within the minute scaled by HZ; and advancing the tick count by
exactly one minute (60 * HZ jiffies) leaves the value unchanged, so
samples one minute apart at the same offset repeat. -/
theorem claim_C7 :
    (∀ (hz : ℕ) (base : ℤ) (j : ℕ),
        0 ≤ base + (j : ℤ) * NSEC_PER_SEC →
        base + (j : ℤ) * NSEC_PER_SEC < (U64 : ℤ) →
        (leo_jiffies hz base j : ℤ) =
          (base + (j : ℤ) * NSEC_PER_SEC) % ((NSEC_PER_MIN * hz : ℕ) : ℤ)) ∧
    (∀ (hz s ns j : ℕ), 1 ≤ hz → hz ≤ 1000000 → ns < NSEC_PER_SEC →
        leo_jiffies hz (leo_jiffies_base_compute hz s ns j) j =
          ((s % 60) * NSEC_PER_SEC + ns) * hz) ∧
    (∀ (hz : ℕ) (base : ℤ) (j : ℕ),
        0 ≤ base + (j : ℤ) * NSEC_PER_SEC →
        base + ((j + 60 * hz : ℕ) : ℤ) * NSEC_PER_SEC < (U64 : ℤ) →
        leo_jiffies hz base (j + 60 * hz) = leo_jiffies hz base j) := by
  refine ⟨?_, ?_, ?_⟩
  · intro hz base j h0 hlt
    unfold leo_jiffies
    rw [Int.emod_eq_of_lt h0 hlt]
    push_cast [Int.toNat_of_nonneg h0]
    rfl
  · intro hz s ns j h1 h2 h3
    have hphase : leo_jiffies_base_compute hz s ns j + (j : ℤ) * NSEC_PER_SEC
        = ((((s % 60) * NSEC_PER_SEC + ns) * hz : ℕ) : ℤ) := by
      unfold leo_jiffies_base_compute SEC_PER_MIN
      push_cast
      ring
    unfold leo_jiffies
    rw [hphase]
    have hub : ((s % 60) * NSEC_PER_SEC + ns) * hz < U64 := by
      have hs : s % 60 < 60 := Nat.mod_lt _ (by norm_num)
      have hph : (s % 60) * NSEC_PER_SEC + ns < 60 * NSEC_PER_SEC := by
        unfold NSEC_PER_SEC at *
        nlinarith
      calc ((s % 60) * NSEC_PER_SEC + ns) * hz
          ≤ (60 * NSEC_PER_SEC) * 1000000 := by
            apply Nat.mul_le_mul (by omega) h2
      _ < U64 := by norm_num [NSEC_PER_SEC, U64]
    have hemod : ((((s % 60) * NSEC_PER_SEC + ns) * hz : ℕ) : ℤ) % (U64 : ℤ)
        = ((((s % 60) * NSEC_PER_SEC + ns) * hz : ℕ) : ℤ) := by
      apply Int.emod_eq_of_lt (Int.natCast_nonneg _)
      exact_mod_cast hub
    rw [hemod, Int.toNat_natCast]
    apply Nat.mod_eq_of_lt
    unfold NSEC_PER_MIN SEC_PER_MIN
    have hs : s % 60 < 60 := Nat.mod_lt _ (by norm_num)
    have hph : (s % 60) * NSEC_PER_SEC + ns < 60 * NSEC_PER_SEC := by
      unfold NSEC_PER_SEC at *
      nlinarith
    calc ((s % 60) * NSEC_PER_SEC + ns) * hz
        < (60 * NSEC_PER_SEC) * hz := by
          apply Nat.mul_lt_mul_of_lt_of_le hph (le_refl hz) (by omega)
    _ = 60 * NSEC_PER_SEC * hz := rfl
  · intro hz base j h0 hlt
    unfold leo_jiffies
    have hsplit : base + ((j + 60 * hz : ℕ) : ℤ) * NSEC_PER_SEC
        = (base + (j : ℤ) * NSEC_PER_SEC) + ((NSEC_PER_MIN * hz : ℕ) : ℤ) := by
      unfold NSEC_PER_MIN SEC_PER_MIN NSEC_PER_SEC
      push_cast
      ring
    rw [hsplit]
    rw [hsplit] at hlt
    have hM0 : (0 : ℤ) ≤ ((NSEC_PER_MIN * hz : ℕ) : ℤ) := Int.natCast_nonneg _
    have h0' : 0 ≤ (base + (j : ℤ) * NSEC_PER_SEC) + ((NSEC_PER_MIN * hz : ℕ) : ℤ) := by
      omega
    have hlt1 : base + (j : ℤ) * NSEC_PER_SEC < (U64 : ℤ) := by omega
    rw [Int.emod_eq_of_lt h0' hlt, Int.emod_eq_of_lt h0 hlt1]
    rw [Int.toNat_add h0 hM0, Int.toNat_natCast]
    exact Nat.add_mod_right _ _

/-- C7 witness: at HZ = 1000, a base computed at wall time 90 s + 123 ns
with tick count 777 yields the wall-clock phase 30.000000123 s scaled by
HZ. -/
theorem claim_C7_witness :
    (1 ≤ 1000 ∧ 1000 ≤ 1000000 ∧ 123 < NSEC_PER_SEC) ∧
    leo_jiffies 1000 (leo_jiffies_base_compute 1000 90 123 777) 777 =
      ((90 % 60) * NSEC_PER_SEC + 123) * 1000 :=
  ⟨⟨by norm_num, by norm_num, by norm_num [NSEC_PER_SEC]⟩,
   claim_C7.2.1 1000 90 123 777 (by norm_num) (by norm_num)
     (by norm_num [NSEC_PER_SEC])⟩

end TcpLeo
